import Mathlib

/-!
Verification of the byte-offset patching engine of the Launch Control XL 3
SysEx template programmer: the control-offset table, the CC-assignment
algorithm, the channel-assignment policy, the SysEx frame splitter and
joiner, and the LED color extraction and application logic, shallowly
embedded from the Python sources (the library module
lib/sysex_generator.py and lib/led_mapper.py, and the legacy module
launchcontrol_xl3_programmer.py, which carries the shared constant tables
EMBEDDED_MSGS, CONTROLS and COLOR_MAP).
-/

namespace LCXL3

/-- Maximum controller number, from the legacy module (MAX_CC_VALUE = 127). -/
def MAX_CC_VALUE : Nat := 127

/-- Minimum controller number, from the legacy module (MIN_CC_VALUE = 1). -/
def MIN_CC_VALUE : Nat := 1

/-- Modelled from the spec: the library's lib/constants.py is absent from the
sources; per spec section 4.2 the safe assignable CC range is [1, 126], so
SAFE_CC_MIN = 1. -/
def SAFE_CC_MIN : Int := 1

/-- Modelled from the spec: the library's lib/constants.py is absent from the
sources; per spec section 4.2 the safe assignable CC range is [1, 126], so
SAFE_CC_MAX = 126. -/
def SAFE_CC_MAX : Int := 126

/-- Modelled from the spec: lib/constants.py is absent from the sources; the
spec (section 4.2 and the concrete scenarios of section 8) gives the default
starting CC number as 1. -/
def DEFAULT_MIN_CC_VALUE : Int := 1

/-- One control descriptor: which of the two frames it lives in and the byte
offsets of its CC, channel, color and mode-flag fields, mirroring the source
tuples (msg_index, cc_pos, ch_pos, color_pos, flag_pos), with flag_pos = -1
meaning "no mode flag". -/
structure Control where
  mi : Nat
  cc : Nat
  ch : Nat
  col : Nat
  flag : Int
deriving DecidableEq, Repr

/-- The control offset table CONTROLS from the legacy module (the library
imports the same table from its constants module). -/
def CONTROLS : List Control := [
  ⟨0,37,34,32,35⟩, ⟨0,48,45,43,46⟩, ⟨0,59,56,54,57⟩, ⟨0,70,67,65,68⟩, ⟨0,81,78,76,79⟩,
  ⟨0,92,89,87,90⟩, ⟨0,103,100,98,101⟩, ⟨0,114,111,109,112⟩, ⟨0,125,122,120,123⟩,
  ⟨0,136,133,131,134⟩, ⟨0,147,144,142,145⟩, ⟨0,158,155,153,156⟩, ⟨0,169,166,164,167⟩,
  ⟨0,180,177,175,178⟩, ⟨0,191,188,186,189⟩, ⟨0,202,199,197,200⟩, ⟨0,213,210,208,211⟩,
  ⟨0,224,221,219,222⟩, ⟨0,235,232,230,233⟩, ⟨0,246,243,241,244⟩, ⟨0,257,254,252,255⟩,
  ⟨0,268,265,263,266⟩, ⟨0,279,276,274,277⟩, ⟨0,290,287,285,288⟩,
  ⟨1,37,34,32,35⟩, ⟨1,48,45,43,46⟩, ⟨1,59,56,54,57⟩, ⟨1,70,67,65,68⟩, ⟨1,81,78,76,79⟩,
  ⟨1,92,89,87,90⟩, ⟨1,103,100,98,101⟩, ⟨1,114,111,109,112⟩, ⟨1,141,138,136,139⟩,
  ⟨1,152,149,147,150⟩, ⟨1,163,160,158,161⟩, ⟨1,174,171,169,172⟩, ⟨1,185,182,180,183⟩,
  ⟨1,196,193,191,194⟩, ⟨1,207,204,202,205⟩, ⟨1,218,215,213,216⟩, ⟨1,229,226,224,227⟩,
  ⟨1,240,237,235,238⟩, ⟨1,251,248,246,249⟩, ⟨1,262,259,257,260⟩, ⟨1,273,270,268,271⟩,
  ⟨1,284,281,279,282⟩, ⟨1,295,292,290,293⟩, ⟨1,306,303,301,304⟩]

/-- CC numbering strategies, mirroring the CCMode enum. -/
inductive CCMode where
  | restart
  | continuous
deriving DecidableEq, Repr

/-- Channel assignment modes, mirroring the ChannelMode enum. -/
inductive ChannelMode where
  | perTemplate
  | globalMode
deriving DecidableEq, Repr

/-- The CC value computed per control by the library generator's
_assign_continuous_controllers (lib/sysex_generator.py): clamp the requested
minimum into the safe range, compute the logical offset for the control under
the numbering mode, and either disable (0) past the available range or assign
forward from the clamped minimum / backward from the safe maximum. -/
def ccValueFor (templateIndex : Nat) (ccMode : CCMode) (minCCValue : Int)
    (ccReverse : Bool) (controlIndex : Nat) : Int :=
  let safeMinCC : Int := max minCCValue SAFE_CC_MIN
  let availableCCs : Int := SAFE_CC_MAX - safeMinCC + 1
  let ccOffset : Int :=
    match ccMode with
    | .restart => (controlIndex : Int)
    | .continuous => ((templateIndex * CONTROLS.length + controlIndex : Nat) : Int)
  if ccOffset ≥ availableCCs then 0
  else if ccReverse then
    let ccValue := SAFE_CC_MAX - ccOffset
    if ccValue < SAFE_CC_MIN then 0 else ccValue
  else
    let ccValue := safeMinCC + ccOffset
    if ccValue > SAFE_CC_MAX then 0 else ccValue

/-- The CC value computed per control by the legacy generator's
_assign_continuous_controllers (launchcontrol_xl3_programmer.py): modular
wraparound over MAX_CC_VALUE, then shifted up by MIN_CC_VALUE. -/
def legacyCCValue (templateIndex : Nat) (ccMode : CCMode) (controlIndex : Nat) : Nat :=
  match ccMode with
  | .restart => controlIndex % MAX_CC_VALUE + MIN_CC_VALUE
  | .continuous => (templateIndex * CONTROLS.length + controlIndex) % MAX_CC_VALUE + MIN_CC_VALUE

/-- The spec's formulation of the CC assignment (spec section 4.2, steps 1-4),
written from the spec's words for comparison with the source embedding: given
the clamped bounds lo and hi and the logical offset k, disable when k is past
the available range, otherwise assign lo + k forward (disable past hi) or
hi - k backward (disable below lo). -/
def specCCAssign (lo hi k : Int) (ccReverse : Bool) : Int :=
  if k ≥ hi - lo + 1 then 0
  else if ccReverse then
    if hi - k < lo then 0 else hi - k
  else
    if lo + k > hi then 0 else lo + k

/-- Helper: dropWhile never lengthens a list. -/
theorem dropWhile_length_le (p : Nat → Bool) (l : List Nat) :
    (l.dropWhile p).length ≤ l.length := by
  induction l with
  | nil => simp
  | cons a l ih =>
    rw [List.dropWhile_cons]
    split
    · exact le_trans ih (Nat.le_succ _)
    · simp

/-- The SysEx frame splitter _split_sysex_messages (lib/led_mapper.py): scan
for a start byte 0xF0, then for the next end byte 0xF7; the inclusive span is
one frame and scanning resumes after it; bytes before a start byte are
skipped, and an unterminated start (no 0xF7 before end of stream) produces no
further frame. -/
def splitSysEx (data : List Nat) : List (List Nat) :=
  match data with
  | [] => []
  | b :: rest =>
    if b = 0xF0 then
      let post := rest.dropWhile (fun x => x != 0xF7)
      if hpost : post = [] then []
      else
        (b :: (rest.takeWhile (fun x => x != 0xF7) ++ [post.head hpost])) ::
          splitSysEx post.tail
    else splitSysEx rest
termination_by data.length
decreasing_by
  · have hlen := dropWhile_length_le (fun x => x != 0xF7) rest
    have hpos : 0 < (rest.dropWhile (fun x => x != 0xF7)).length :=
      List.length_pos.mpr hpost
    simp only [List.length_tail, List.length_cons]
    omega
  · simp only [List.length_cons]
    omega

/-- A well-formed SysEx frame: a 0xF0 start byte, then interior bytes
containing neither marker, then a 0xF7 end byte. -/
def WFFrame (f : List Nat) : Prop :=
  ∃ mid : List Nat, f = 0xF0 :: (mid ++ [0xF7]) ∧ ∀ b ∈ mid, b ≠ 0xF0 ∧ b ≠ 0xF7

/-- The pair of embedded factory-default SysEx frames EMBEDDED_MSGS from the
legacy module (the library imports the same two frames from its constants
module), each 342 bytes, as byte lists. -/
def EMBEDDED_MSGS : List (List Nat) := [
  [
    0xf0, 0x00, 0x20, 0x29, 0x02, 0x15, 0x05, 0x00, 0x45, 0x00, 0x7f, 0x20, 0x10, 0x2a, 0x4e, 0x65, 0x77, 0x20, 0x43, 0x75,
    0x73, 0x74, 0x6f, 0x6d, 0x20, 0x4d, 0x6f, 0x64, 0x65, 0x49, 0x10, 0x02, 0x05, 0x00, 0x01, 0x40, 0x00, 0x0d, 0x7f, 0x00,
    0x49, 0x11, 0x02, 0x05, 0x00, 0x01, 0x40, 0x00, 0x0e, 0x7f, 0x00, 0x49, 0x12, 0x02, 0x05, 0x00, 0x01, 0x40, 0x00, 0x0f,
    0x7f, 0x00, 0x49, 0x13, 0x02, 0x05, 0x00, 0x01, 0x40, 0x00, 0x10, 0x7f, 0x00, 0x49, 0x14, 0x02, 0x05, 0x00, 0x01, 0x40,
    0x00, 0x11, 0x7f, 0x00, 0x49, 0x15, 0x02, 0x05, 0x00, 0x01, 0x40, 0x00, 0x12, 0x7f, 0x00, 0x49, 0x16, 0x02, 0x05, 0x00,
    0x01, 0x40, 0x00, 0x13, 0x7f, 0x00, 0x49, 0x17, 0x02, 0x05, 0x00, 0x01, 0x40, 0x00, 0x14, 0x7f, 0x00, 0x49, 0x18, 0x02,
    0x09, 0x00, 0x01, 0x40, 0x00, 0x15, 0x7f, 0x00, 0x49, 0x19, 0x02, 0x09, 0x00, 0x01, 0x40, 0x00, 0x16, 0x7f, 0x00, 0x49,
    0x1a, 0x02, 0x09, 0x00, 0x01, 0x40, 0x00, 0x17, 0x7f, 0x00, 0x49, 0x1b, 0x02, 0x09, 0x00, 0x01, 0x40, 0x00, 0x18, 0x7f,
    0x00, 0x49, 0x1c, 0x02, 0x09, 0x00, 0x01, 0x40, 0x00, 0x19, 0x7f, 0x00, 0x49, 0x1d, 0x02, 0x09, 0x00, 0x01, 0x40, 0x00,
    0x1a, 0x7f, 0x00, 0x49, 0x1e, 0x02, 0x09, 0x00, 0x01, 0x40, 0x00, 0x1b, 0x7f, 0x00, 0x49, 0x1f, 0x02, 0x09, 0x00, 0x01,
    0x40, 0x00, 0x1c, 0x7f, 0x00, 0x49, 0x20, 0x02, 0x0d, 0x00, 0x01, 0x40, 0x00, 0x1d, 0x7f, 0x00, 0x49, 0x21, 0x02, 0x0d,
    0x00, 0x01, 0x40, 0x00, 0x1e, 0x7f, 0x00, 0x49, 0x22, 0x02, 0x0d, 0x00, 0x01, 0x40, 0x00, 0x1f, 0x7f, 0x00, 0x49, 0x23,
    0x02, 0x0d, 0x00, 0x01, 0x40, 0x00, 0x20, 0x7f, 0x00, 0x49, 0x24, 0x02, 0x0d, 0x00, 0x01, 0x40, 0x00, 0x21, 0x7f, 0x00,
    0x49, 0x25, 0x02, 0x0d, 0x00, 0x01, 0x40, 0x00, 0x22, 0x7f, 0x00, 0x49, 0x26, 0x02, 0x0d, 0x00, 0x01, 0x40, 0x00, 0x23,
    0x7f, 0x00, 0x49, 0x27, 0x02, 0x0d, 0x00, 0x01, 0x40, 0x00, 0x24, 0x7f, 0x00, 0x60, 0x10, 0x60, 0x11, 0x60, 0x12, 0x60,
    0x13, 0x60, 0x14, 0x60, 0x15, 0x60, 0x16, 0x60, 0x17, 0x60, 0x18, 0x60, 0x19, 0x60, 0x1a, 0x60, 0x1b, 0x60, 0x1c, 0x60,
    0x1d, 0x60, 0x1e, 0x60, 0x1f, 0x60, 0x20, 0x60, 0x21, 0x60, 0x22, 0x60, 0x23, 0x60, 0x24, 0x60, 0x25, 0x60, 0x26, 0x60,
    0x27, 0xf7
  ],
  [
    0xf0, 0x00, 0x20, 0x29, 0x02, 0x15, 0x05, 0x00, 0x45, 0x03, 0x7f, 0x20, 0x10, 0x2a, 0x4e, 0x65, 0x77, 0x20, 0x43, 0x75,
    0x73, 0x74, 0x6f, 0x6d, 0x20, 0x4d, 0x6f, 0x64, 0x65, 0x49, 0x28, 0x02, 0x00, 0x00, 0x01, 0x40, 0x00, 0x05, 0x7f, 0x00,
    0x49, 0x29, 0x02, 0x00, 0x00, 0x01, 0x40, 0x00, 0x06, 0x7f, 0x00, 0x49, 0x2a, 0x02, 0x00, 0x00, 0x01, 0x40, 0x00, 0x07,
    0x7f, 0x00, 0x49, 0x2b, 0x02, 0x00, 0x00, 0x01, 0x40, 0x00, 0x08, 0x7f, 0x00, 0x49, 0x2c, 0x02, 0x00, 0x00, 0x01, 0x40,
    0x00, 0x09, 0x7f, 0x00, 0x49, 0x2d, 0x02, 0x00, 0x00, 0x01, 0x40, 0x00, 0x0a, 0x7f, 0x00, 0x49, 0x2e, 0x02, 0x00, 0x00,
    0x01, 0x40, 0x00, 0x0b, 0x7f, 0x00, 0x49, 0x2f, 0x02, 0x00, 0x00, 0x01, 0x40, 0x00, 0x0c, 0x7f, 0x00, 0x60, 0x28, 0x60,
    0x29, 0x60, 0x2a, 0x60, 0x2b, 0x60, 0x2c, 0x60, 0x2d, 0x60, 0x2e, 0x60, 0x2f, 0x49, 0x30, 0x02, 0x19, 0x03, 0x01, 0x50,
    0x00, 0x25, 0x7f, 0x00, 0x49, 0x31, 0x02, 0x19, 0x03, 0x01, 0x50, 0x00, 0x26, 0x7f, 0x00, 0x49, 0x32, 0x02, 0x19, 0x03,
    0x01, 0x50, 0x00, 0x27, 0x7f, 0x00, 0x49, 0x33, 0x02, 0x19, 0x03, 0x01, 0x50, 0x00, 0x28, 0x7f, 0x00, 0x49, 0x34, 0x02,
    0x19, 0x03, 0x01, 0x50, 0x00, 0x29, 0x7f, 0x00, 0x49, 0x35, 0x02, 0x19, 0x03, 0x01, 0x50, 0x00, 0x2a, 0x7f, 0x00, 0x49,
    0x36, 0x02, 0x19, 0x03, 0x01, 0x50, 0x00, 0x2b, 0x7f, 0x00, 0x49, 0x37, 0x02, 0x19, 0x03, 0x01, 0x50, 0x00, 0x2c, 0x7f,
    0x00, 0x49, 0x38, 0x02, 0x25, 0x03, 0x01, 0x50, 0x00, 0x2d, 0x7f, 0x00, 0x49, 0x39, 0x02, 0x25, 0x03, 0x01, 0x50, 0x00,
    0x2e, 0x7f, 0x00, 0x49, 0x3a, 0x02, 0x25, 0x03, 0x01, 0x50, 0x00, 0x2f, 0x7f, 0x00, 0x49, 0x3b, 0x02, 0x25, 0x03, 0x01,
    0x50, 0x00, 0x30, 0x7f, 0x00, 0x49, 0x3c, 0x02, 0x25, 0x03, 0x01, 0x50, 0x00, 0x31, 0x7f, 0x00, 0x49, 0x3d, 0x02, 0x25,
    0x03, 0x01, 0x50, 0x00, 0x32, 0x7f, 0x00, 0x49, 0x3e, 0x02, 0x25, 0x03, 0x01, 0x50, 0x00, 0x33, 0x7f, 0x00, 0x49, 0x3f,
    0x02, 0x25, 0x03, 0x01, 0x50, 0x00, 0x34, 0x7f, 0x00, 0x60, 0x30, 0x60, 0x31, 0x60, 0x32, 0x60, 0x33, 0x60, 0x34, 0x60,
    0x35, 0x60, 0x36, 0x60, 0x37, 0x60, 0x38, 0x60, 0x39, 0x60, 0x3a, 0x60, 0x3b, 0x60, 0x3c, 0x60, 0x3d, 0x60, 0x3e, 0x60,
    0x3f, 0xf7
  ]]

/-- The static color table COLOR_MAP from the legacy module (the library
imports the same mapping from its constants module), in source order. -/
def COLOR_MAP : List (String × Nat) := [
  ("red", 0x05), ("orange", 0x09), ("yellow", 0x0d), ("lime", 0x11), ("green", 0x19),
  ("turquoise", 0x1d), ("cyan", 0x21), ("light_blue", 0x25), ("blue", 0x29),
  ("dark_blue", 0x2d), ("purple", 0x31), ("fuchsia", 0x35), ("pink", 0x39),
  ("off", 0x03), ("disabled", 0x00)]

/-- A message buffer: the pair of frames being patched, as byte lists. -/
abbrev Msgs := List (List Nat)

/-- A byte location: frame index and byte offset within that frame. -/
abbrev Loc := Nat × Nat

/-- Read the byte at a location (0 when out of bounds). -/
def readLoc (m : Msgs) (l : Loc) : Nat :=
  (m.getD l.1 []).getD l.2 0

/-- Write the byte at a location; out-of-bounds writes leave the buffer
unchanged (the generator's writes are all within the fixed-size frames). -/
def writeLoc (m : Msgs) (l : Loc) (v : Nat) : Msgs :=
  m.set l.1 ((m.getD l.1 []).set l.2 v)

/-- Apply a sequence of byte writes in order. -/
def applyWrites (ws : List (Loc × Nat)) (m : Msgs) : Msgs :=
  ws.foldl (fun acc w => writeLoc acc w.1 w.2) m

/-- Maximum MIDI channel, from the legacy module (MAX_MIDI_CHANNEL = 16). -/
def MAX_MIDI_CHANNEL : Int := 16

/-- Minimum MIDI channel, from the legacy module (MIN_MIDI_CHANNEL = 1). -/
def MIN_MIDI_CHANNEL : Int := 1

/-- _validate_channel (lib/sysex_generator.py): accept a channel in 1..16 and
convert it to the zero-based wire value, otherwise raise ValueError. -/
def validateChannel (channel116 : Int) : Except String Nat :=
  if MIN_MIDI_CHANNEL ≤ channel116 ∧ channel116 ≤ MAX_MIDI_CHANNEL then
    .ok (channel116 - 1).toNat
  else
    .error "Channel must be integer between 1 and 16"

/-- _get_channel_for_template (lib/sysex_generator.py): in GLOBAL mode return
the supplied global channel (raising ValueError when absent); in PER_TEMPLATE
mode cap the template number at channel 16. -/
def getChannelForTemplate (templateNum : Int) (channelMode : ChannelMode)
    (globalChannel : Option Int) : Except String Int :=
  match channelMode with
  | .globalMode =>
    match globalChannel with
    | none => .error "Global channel must be specified for GLOBAL channel mode"
    | some g => .ok g
  | .perTemplate => .ok (min templateNum MAX_MIDI_CHANNEL)

/-- _set_midi_channel (lib/sysex_generator.py), write part: store the
zero-based channel at every control's channel offset and force the mode flag
byte to 0x00 wherever a flag offset exists. -/
def setMidiChannel (m : Msgs) (zeroBasedChannel : Nat) : Msgs :=
  CONTROLS.foldl (fun acc c =>
    let acc1 := writeLoc acc (c.mi, c.ch) zeroBasedChannel
    if 0 ≤ c.flag then writeLoc acc1 (c.mi, c.flag.toNat) 0x00 else acc1) m

/-- _assign_continuous_controllers (lib/sysex_generator.py) acting on the
buffer: write each control's computed CC value at its CC offset, in table
order. -/
def assignCCs (m : Msgs) (templateIndex : Nat) (ccMode : CCMode)
    (minCCValue : Int) (ccReverse : Bool) : Msgs :=
  CONTROLS.enum.foldl (fun acc ci =>
    writeLoc acc (ci.2.mi, ci.2.cc)
      (ccValueFor templateIndex ccMode minCCValue ccReverse ci.1).toNat) m

/-- generate_template (lib/sysex_generator.py): clone the base messages,
determine and validate the channel (failures surface before any byte is
patched), write the channel and flag bytes, then assign the CC bytes. The
embedding covers template numbers from 1 up, the domain the caller uses. -/
def generateTemplate (templateNum : Int) (channelMode : ChannelMode)
    (ccMode : CCMode) (globalChannel : Option Int)
    (minCCValue : Int) (ccReverse : Bool) : Except String Msgs :=
  match getChannelForTemplate templateNum channelMode globalChannel with
  | .error e => .error e
  | .ok channel =>
    match validateChannel channel with
    | .error e => .error e
    | .ok zeroBased =>
      .ok (assignCCs (setMidiChannel EMBEDDED_MSGS zeroBased)
        (templateNum - 1).toNat ccMode minCCValue ccReverse)

/-- The write list produced by _set_midi_channel, in execution order. -/
def channelWrites (zeroBasedChannel : Nat) : List (Loc × Nat) :=
  CONTROLS.flatMap (fun c =>
    ((c.mi, c.ch), zeroBasedChannel) ::
      (if 0 ≤ c.flag then [((c.mi, c.flag.toNat), 0x00)] else []))

/-- The write list produced by _assign_continuous_controllers, in execution
order. -/
def ccWrites (templateIndex : Nat) (ccMode : CCMode) (minCCValue : Int)
    (ccReverse : Bool) : List (Loc × Nat) :=
  CONTROLS.enum.map (fun ci =>
    ((ci.2.mi, ci.2.cc), (ccValueFor templateIndex ccMode minCCValue ccReverse ci.1).toNat))

/-- A location patched by the template generator: some control's CC offset,
channel offset, or (where present) mode-flag offset. -/
def IsPatchedLoc (l : Loc) : Prop :=
  ∃ c ∈ CONTROLS, l = (c.mi, c.cc) ∨ l = (c.mi, c.ch) ∨
    (0 ≤ c.flag ∧ l = (c.mi, c.flag.toNat))

/-- Reverse lookup in the color table, as in _extract_colors_from_sysex
(lib/led_mapper.py): the first name whose value matches, defaulting to off. -/
def colorNameOfValue (v : Nat) : String :=
  match COLOR_MAP.find? (fun p => p.2 == v) with
  | some p => p.1
  | none => "off"

/-- Forward lookup in the color table, as in _apply_colors_to_sysex
(lib/led_mapper.py): COLOR_MAP.get(name, COLOR_MAP of off). -/
def colorValueOfName (n : String) : Nat :=
  match COLOR_MAP.find? (fun p => p.1 == n) with
  | some p => p.2
  | none =>
    match COLOR_MAP.find? (fun p => p.1 == "off") with
    | some p => p.2
    | none => 0

/-- Modelled from the spec: DEVICE_LAYOUT lives in the absent
lib/constants.py; per spec section 4.5 the device grid is the three knob
rows, then the slider row, then the two button rows, eight columns each,
flattened in that order by _control_index_to_position, so control index i
maps to row i / 8, column i % 8 over the 48 grid positions. -/
def controlIndexToPosition (controlIndex : Nat) : Option (Nat × Nat) :=
  if controlIndex < 48 then some (controlIndex / 8, controlIndex % 8) else none

/-- The editor's color state: a total map from grid positions to color names;
every position starts as off, matching the dict initialisation plus its off
default. -/
def initColors : (Nat × Nat) → String := fun _ => "off"

/-- Record a color name at one grid position. -/
def updColor (cols : (Nat × Nat) → String) (rc : Nat × Nat) (n : String) :
    (Nat × Nat) → String :=
  fun rc2 => if rc2 = rc then n else cols rc2

/-- Apply a sequence of color-state updates in order. -/
def applyUpds (us : List ((Nat × Nat) × String)) (cols : (Nat × Nat) → String) :
    (Nat × Nat) → String :=
  us.foldl (fun acc u => updColor acc u.1 u.2) cols

/-- _extract_colors_from_sysex (lib/led_mapper.py): split the stream, and for
every control whose frame and color offset are in bounds, read its color
byte, reverse-look it up, and record the name at the control's grid
position. -/
def extractColors (data : List Nat) : (Nat × Nat) → String :=
  let msgs := splitSysEx data
  CONTROLS.enum.foldl (fun cols ci =>
    if ci.2.mi < msgs.length ∧ ci.2.col < (msgs.getD ci.2.mi []).length then
      match controlIndexToPosition ci.1 with
      | some rc =>
        updColor cols rc (colorNameOfValue ((msgs.getD ci.2.mi []).getD ci.2.col 0))
      | none => cols
    else cols) initColors

/-- _apply_colors_to_sysex (lib/led_mapper.py), buffer part: for every control
whose frame and color offset are in bounds, write the resolved color byte of
its grid position's name at its color offset. -/
def patchColorsFrames (msgs : Msgs) (cols : (Nat × Nat) → String) : Msgs :=
  CONTROLS.enum.foldl (fun acc ci =>
    if ci.2.mi < acc.length ∧ ci.2.col < (acc.getD ci.2.mi []).length then
      match controlIndexToPosition ci.1 with
      | some rc => writeLoc acc (ci.2.mi, ci.2.col) (colorValueOfName (cols rc))
      | none => acc
    else acc) msgs

/-- _apply_colors_to_sysex (lib/led_mapper.py): split, patch the color bytes,
and rejoin the frames into one stream. -/
def applyColors (data : List Nat) (cols : (Nat × Nat) → String) : List Nat :=
  (patchColorsFrames (splitSysEx data) cols).join

/-- The update list produced by the extraction pass, in execution order. -/
def colorUpdates (msgs : Msgs) : List ((Nat × Nat) × String) :=
  CONTROLS.enum.filterMap (fun ci =>
    if ci.2.mi < msgs.length ∧ ci.2.col < (msgs.getD ci.2.mi []).length then
      match controlIndexToPosition ci.1 with
      | some rc =>
        some (rc, colorNameOfValue ((msgs.getD ci.2.mi []).getD ci.2.col 0))
      | none => none
    else none)

/-- The write list produced by the color application pass, in execution
order, with bounds taken against the (length-invariant) input buffer. -/
def colorWrites (msgs : Msgs) (cols : (Nat × Nat) → String) : List (Loc × Nat) :=
  CONTROLS.enum.filterMap (fun ci =>
    if ci.2.mi < msgs.length ∧ ci.2.col < (msgs.getD ci.2.mi []).length then
      match controlIndexToPosition ci.1 with
      | some rc => some ((ci.2.mi, ci.2.col), colorValueOfName (cols rc))
      | none => none
    else none)

theorem controls_length : CONTROLS.length = 48 := by rfl

/-- C1 counterexample: the claim computes the continuous-mode logical offset
as t * 47 + i, so at template index 1, control index 0, default minimum CC 1,
forward direction, it predicts CC byte 1 + (1 * 47 + 0) = 48; the generator
(whose table has 48 controls) writes 49. -/
theorem c1_counterexample :
    ccValueFor 1 CCMode.continuous DEFAULT_MIN_CC_VALUE false 0 ≠ 1 + (1 * 47 + 0) := by
  decide

/-- C1 (amended: the control table has 48 entries, so the continuous-mode
logical offset is k = t * 48 + i): for every control index i over the table,
template index t, CC mode, reverse flag and requested minimum CC, the CC byte
computed by the library generator equals the spec's step-by-step assignment
with lo = max(requested minimum, safe minimum), hi = safe maximum, and
k = i under restart mode, k = t * 48 + i under continuous mode. -/
theorem c1_cc_assignment_formula (t i : Nat) (mode : CCMode) (minCC : Int)
    (rev : Bool) (hctl : i < CONTROLS.length) :
    ccValueFor t mode minCC rev i =
      specCCAssign (max minCC SAFE_CC_MIN) SAFE_CC_MAX
        (match mode with
          | .restart => (i : Int)
          | .continuous => ((t * 48 + i : Nat) : Int)) rev := by
  have hctl48 : i < 48 := by simpa [controls_length] using hctl
  have hlo : (1 : Int) ≤ max minCC 1 := le_max_right _ _
  cases mode <;>
    · simp only [ccValueFor, specCCAssign, controls_length, SAFE_CC_MIN, SAFE_CC_MAX]
      generalize max minCC 1 = lo at hlo ⊢
      split_ifs <;> first | omega | simp_all

/-- C1 witness: at template index 1, control index 0, continuous mode,
minimum CC 1, forward, the generator's byte matches the spec formula with
k = 1 * 48 + 0, namely CC 49. -/
theorem c1_cc_assignment_formula_witness :
    ccValueFor 1 CCMode.continuous 1 false 0 =
      specCCAssign (max 1 SAFE_CC_MIN) SAFE_CC_MAX ((1 * 48 + 0 : Nat) : Int) false ∧
    ccValueFor 1 CCMode.continuous 1 false 0 = 49 :=
  ⟨c1_cc_assignment_formula 1 0 CCMode.continuous 1 false (by decide), by decide⟩

/-- C3: for every control index, template index, CC mode, reverse flag and
requested minimum CC, the CC byte computed by the library generator is either
0 (disabled) or lies within the closed safe interval [lo, hi], where lo is the
clamped safe minimum and hi the safe maximum. -/
theorem c3_cc_range_safety (t i : Nat) (mode : CCMode) (minCC : Int) (rev : Bool) :
    ccValueFor t mode minCC rev i = 0 ∨
      (max minCC SAFE_CC_MIN ≤ ccValueFor t mode minCC rev i ∧
        ccValueFor t mode minCC rev i ≤ SAFE_CC_MAX) := by
  have hlo : (1 : Int) ≤ max minCC 1 := le_max_right _ _
  cases mode <;>
    · simp only [ccValueFor, SAFE_CC_MIN, SAFE_CC_MAX, controls_length]
      generalize max minCC 1 = lo at hlo ⊢
      split_ifs <;> first | omega | simp_all

/-- C5: in continuous mode, two distinct (template index, control index) pairs
whose assigned CC bytes are both nonzero never receive the same CC byte: the
per-template offset blocks are disjoint, so no CC repeats until the safe range
is exhausted (past which both bytes are the disable sentinel 0). -/
theorem c5_continuous_no_collision (t i t2 i2 : Nat) (minCC : Int) (rev : Bool)
    (h1 : i < CONTROLS.length) (h2 : i2 < CONTROLS.length)
    (hne : (t, i) ≠ (t2, i2))
    (hz1 : ccValueFor t .continuous minCC rev i ≠ 0)
    (hz2 : ccValueFor t2 .continuous minCC rev i2 ≠ 0) :
    ccValueFor t .continuous minCC rev i ≠ ccValueFor t2 .continuous minCC rev i2 := by
  have hor : t ≠ t2 ∨ i ≠ i2 := by
    by_contra h
    push_neg at h
    exact hne (by rw [h.1, h.2])
  have h48 : i < 48 := by simpa [controls_length] using h1
  have h48' : i2 < 48 := by simpa [controls_length] using h2
  have hk : t * 48 + i ≠ t2 * 48 + i2 := by
    rcases hor with h | h <;> omega
  have hlo : (1 : Int) ≤ max minCC 1 := le_max_right _ _
  simp only [ccValueFor, SAFE_CC_MIN, SAFE_CC_MAX, controls_length] at hz1 hz2 ⊢
  generalize max minCC 1 = lo at hlo hz1 hz2 ⊢
  split_ifs at hz1 hz2 ⊢ <;> omega

/-- C5 witness: template 0 controls 0 and 1 (continuous, minimum CC 1,
forward) receive distinct nonzero CC bytes. -/
theorem c5_continuous_no_collision_witness :
    ccValueFor 0 CCMode.continuous 1 false 0 ≠ ccValueFor 0 CCMode.continuous 1 false 1 :=
  c5_continuous_no_collision 0 0 0 1 1 false (by decide) (by decide)
    (by decide) (by decide) (by decide)

/-- C10 counterexample: the claim takes the control table to have 47 entries
and the continuous logical offset to be k = t * 47 + i, predicting that at
template index 1, control index 0 (k = 47 < 126) both generators write
k + 1 = 48; in fact both write 49 (the table has 48 entries). -/
theorem c10_counterexample :
    ¬(legacyCCValue 1 CCMode.continuous 0 = 1 * 47 + 0 + 1 ∧
      ccValueFor 1 CCMode.continuous DEFAULT_MIN_CC_VALUE false 0 =
        ((1 * 47 + 0 + 1 : Nat) : Int)) := by
  decide

/-- C10 (amended: the shared control table has 48 entries, so the continuous
logical offset is k = t * 48 + i): with the default minimum CC 1, safe range
[1, 126] and forward direction, for k < 126 the legacy and library generators
write the same CC byte k + 1; for k >= 126 they diverge, the legacy generator
wrapping to (k mod 127) + 1 while the library generator writes the disable
sentinel 0. -/
theorem c10_legacy_library_refinement (t i : Nat) (mode : CCMode)
    (hctl : i < CONTROLS.length) :
    (∀ k : Nat, k = (match mode with | .restart => i | .continuous => t * 48 + i) →
      (k < 126 →
        legacyCCValue t mode i = k + 1 ∧
        ccValueFor t mode DEFAULT_MIN_CC_VALUE false i = ((k + 1 : Nat) : Int)) ∧
      (126 ≤ k →
        legacyCCValue t mode i = k % 127 + 1 ∧
        ccValueFor t mode DEFAULT_MIN_CC_VALUE false i = 0)) := by
  intro k hk
  simp only [controls_length] at hctl
  cases mode <;>
    · simp only at hk
      subst hk
      constructor
      · intro hklt
        constructor
        · simp only [legacyCCValue, MAX_CC_VALUE, MIN_CC_VALUE, controls_length]
          omega
        · simp only [ccValueFor, DEFAULT_MIN_CC_VALUE, SAFE_CC_MIN, SAFE_CC_MAX, max_self,
            controls_length]
          split_ifs <;> first | omega | simp_all
      · intro hkge
        constructor
        · simp only [legacyCCValue, MAX_CC_VALUE, MIN_CC_VALUE, controls_length]
        · simp only [ccValueFor, DEFAULT_MIN_CC_VALUE, SAFE_CC_MIN, SAFE_CC_MAX, max_self,
            controls_length]
          split_ifs <;> first | omega | simp_all

theorem splitSysEx_nil : splitSysEx [] = [] := by
  rw [splitSysEx]

theorem splitSysEx_cons_ne (b : Nat) (rest : List Nat) (hb : ¬b = 0xF0) :
    splitSysEx (b :: rest) = splitSysEx rest := by
  rw [splitSysEx]
  simp [hb]

theorem splitSysEx_cons_f0 (rest : List Nat) :
    splitSysEx (0xF0 :: rest) =
      if hpost : rest.dropWhile (fun x => x != 0xF7) = [] then []
      else
        (0xF0 :: (rest.takeWhile (fun x => x != 0xF7) ++
            [(rest.dropWhile (fun x => x != 0xF7)).head hpost])) ::
          splitSysEx (rest.dropWhile (fun x => x != 0xF7)).tail := by
  rw [splitSysEx]
  rfl

/-- Helper: takeWhile over a block with no 0xF7 followed by 0xF7 returns the
block. -/
theorem takeWhile_no_f7 (mid t : List Nat) (hm : ∀ b ∈ mid, b ≠ 0xF7) :
    (mid ++ 0xF7 :: t).takeWhile (fun x => x != 0xF7) = mid := by
  induction mid with
  | nil => simp [List.takeWhile_cons]
  | cons a m ih =>
    have ha : (a != 0xF7) = true := by
      simpa using hm a (List.mem_cons_self a m)
    simp only [List.cons_append, List.takeWhile_cons, ha, if_true]
    rw [ih (fun b hb => hm b (List.mem_cons_of_mem a hb))]

/-- Helper: dropWhile over a block with no 0xF7 followed by 0xF7 lands on the
0xF7. -/
theorem dropWhile_no_f7 (mid t : List Nat) (hm : ∀ b ∈ mid, b ≠ 0xF7) :
    (mid ++ 0xF7 :: t).dropWhile (fun x => x != 0xF7) = 0xF7 :: t := by
  induction mid with
  | nil => simp [List.dropWhile_cons]
  | cons a m ih =>
    have ha : (a != 0xF7) = true := by
      simpa using hm a (List.mem_cons_self a m)
    simp only [List.cons_append, List.dropWhile_cons, ha, if_true]
    exact ih (fun b hb => hm b (List.mem_cons_of_mem a hb))

/-- Helper: dropWhile of a list with no 0xF7 is empty. -/
theorem dropWhile_all_no_f7 (t : List Nat) (ht : ∀ b ∈ t, b ≠ 0xF7) :
    t.dropWhile (fun x => x != 0xF7) = [] := by
  induction t with
  | nil => rfl
  | cons a m ih =>
    have ha : (a != 0xF7) = true := by
      simpa using ht a (List.mem_cons_self a m)
    simp only [List.dropWhile_cons, ha, if_true]
    exact ih (fun b hb => ht b (List.mem_cons_of_mem a hb))

/-- Helper: the first byte surviving dropWhile (x != 0xF7) is 0xF7. -/
theorem head_dropWhile_f7 (l : List Nat) (h : l.dropWhile (fun x => x != 0xF7) ≠ []) :
    (l.dropWhile (fun x => x != 0xF7)).head h = 0xF7 := by
  induction l with
  | nil => exact absurd rfl h
  | cons a m ih =>
    by_cases ha : (a != 0xF7) = true
    · simp only [List.dropWhile_cons, ha, if_true] at h ⊢
      exact ih h
    · have ha' : a = 0xF7 := by simpa using ha
      simp only [List.dropWhile_cons, ha, if_false] at h ⊢
      simpa using ha'

/-- Helper: splitting a stream that starts with a terminated frame emits that
frame and recurses past it. -/
theorem splitSysEx_f0_term (mid t : List Nat) (hm : ∀ b ∈ mid, b ≠ 0xF7) :
    splitSysEx (0xF0 :: (mid ++ 0xF7 :: t)) =
      (0xF0 :: (mid ++ [0xF7])) :: splitSysEx t := by
  rw [splitSysEx_cons_f0]
  simp only [dropWhile_no_f7 mid t hm, takeWhile_no_f7 mid t hm]
  simp

/-- Helper: an unterminated start byte yields nothing. -/
theorem splitSysEx_f0_unterm (t : List Nat) (ht : ∀ b ∈ t, b ≠ 0xF7) :
    splitSysEx (0xF0 :: t) = [] := by
  rw [splitSysEx_cons_f0]
  simp [dropWhile_all_no_f7 t ht]

/-- Helper: splitting the concatenation of well-formed frames recovers exactly
those frames. -/
theorem splitSysEx_join (frames : List (List Nat)) (h : ∀ f ∈ frames, WFFrame f) :
    splitSysEx frames.join = frames := by
  induction frames with
  | nil => exact splitSysEx_nil
  | cons f rest ih =>
    obtain ⟨mid, rfl, hmid⟩ := h f (List.mem_cons_self _ _)
    have h1 : ((0xF0 :: (mid ++ [0xF7])) :: rest).join =
        0xF0 :: (mid ++ 0xF7 :: rest.join) := by simp
    rw [h1, splitSysEx_f0_term mid rest.join (fun b hb => (hmid b hb).2),
      ih (fun g hg => h g (List.mem_cons_of_mem _ hg))]

/-- Helper: bytes with no start byte in front of a stream do not change the
split. -/
theorem splitSysEx_garbage (pre : List Nat) (rest : List Nat) :
    (∀ b ∈ pre, b ≠ 0xF0) → splitSysEx (pre ++ rest) = splitSysEx rest := by
  induction pre with
  | nil => intro _; rfl
  | cons a p ih =>
    intro hpre
    rw [List.cons_append, splitSysEx_cons_ne a (p ++ rest) (hpre a (List.mem_cons_self a p)),
      ih (fun b hb => hpre b (List.mem_cons_of_mem a hb))]

/-- Helper: every frame the splitter emits starts with 0xF0, ends with the
first following 0xF7, and contains no 0xF7 in between. -/
theorem splitSysEx_shape (n : Nat) : ∀ data : List Nat, data.length ≤ n →
    ∀ f ∈ splitSysEx data, ∃ mid, f = 0xF0 :: (mid ++ [0xF7]) ∧ ∀ b ∈ mid, b ≠ 0xF7 := by
  induction n with
  | zero =>
    intro data hlen f hf
    have : data = [] := List.length_eq_zero.mp (Nat.le_zero.mp hlen)
    subst this
    rw [splitSysEx_nil] at hf
    exact absurd hf (List.not_mem_nil f)
  | succ n ih =>
    intro data hlen f hf
    match data with
    | [] =>
      rw [splitSysEx_nil] at hf
      exact absurd hf (List.not_mem_nil f)
    | b :: rest =>
      by_cases hb : b = 0xF0
      · subst hb
        rw [splitSysEx_cons_f0] at hf
        by_cases hpost : rest.dropWhile (fun x => x != 0xF7) = []
        · simp only [hpost, dif_pos] at hf
          exact absurd hf (List.not_mem_nil f)
        · simp only [dif_neg hpost] at hf
          rcases List.mem_cons.mp hf with hfe | hfr
          · refine ⟨rest.takeWhile (fun x => x != 0xF7), ?_, ?_⟩
            · rw [hfe, head_dropWhile_f7 rest hpost]
            · intro x hx
              have := List.mem_takeWhile_imp hx
              simpa using this
          · have hd := dropWhile_length_le (fun x => x != 0xF7) rest
            have hpos : 0 < (rest.dropWhile (fun x => x != 0xF7)).length :=
              List.length_pos.mpr hpost
            refine ih (rest.dropWhile (fun x => x != 0xF7)).tail ?_ f hfr
            simp only [List.length_tail]
            simp only [List.length_cons] at hlen
            omega
      · rw [splitSysEx_cons_ne b rest hb] at hf
        refine ih rest ?_ f hf
        simp only [List.length_cons] at hlen
        omega

/-- Helper: an unterminated trailing start byte after a clean concatenation of
well-formed frames contributes no extra frame. -/
theorem splitSysEx_unterm_trail (frames : List (List Nat)) (trail : List Nat)
    (htr : ∀ b ∈ trail, b ≠ 0xF7) :
    (∀ f ∈ frames, WFFrame f) → splitSysEx (frames.join ++ 0xF0 :: trail) = frames := by
  induction frames with
  | nil =>
    intro _
    simpa using splitSysEx_f0_unterm trail htr
  | cons f rest ih =>
    intro hwf
    obtain ⟨mid, rfl, hmid⟩ := hwf f (List.mem_cons_self _ _)
    have h1 : ((0xF0 :: (mid ++ [0xF7])) :: rest).join ++ 0xF0 :: trail =
        0xF0 :: (mid ++ 0xF7 :: (rest.join ++ 0xF0 :: trail)) := by simp
    rw [h1, splitSysEx_f0_term mid _ (fun b hb => (hmid b hb).2),
      ih (fun g hg => hwf g (List.mem_cons_of_mem _ hg))]

/-- C7: for every byte stream that is a clean concatenation of K well-formed
frames, splitting yields exactly those K frames in order, and joining the
split reproduces the stream byte for byte. -/
theorem c7_framer_roundtrip (frames : List (List Nat)) (h : ∀ f ∈ frames, WFFrame f) :
    splitSysEx frames.join = frames ∧ (splitSysEx frames.join).join = frames.join := by
  have hs := splitSysEx_join frames h
  exact ⟨hs, by rw [hs]⟩

/-- C7 witness: a concrete two-frame stream splits back into its frames and
rejoins to the original bytes. -/
theorem c7_framer_roundtrip_witness :
    splitSysEx ([[0xF0, 0x05, 0xF7], [0xF0, 0x09, 0xF7]] : List (List Nat)).join =
      [[0xF0, 0x05, 0xF7], [0xF0, 0x09, 0xF7]] :=
  (c7_framer_roundtrip [[0xF0, 0x05, 0xF7], [0xF0, 0x09, 0xF7]] (by
    intro f hf
    simp only [List.mem_cons, List.not_mem_nil, or_false] at hf
    rcases hf with rfl | rfl
    · exact ⟨[0x05], rfl, by decide⟩
    · exact ⟨[0x09], rfl, by decide⟩)).1

/-- C8: the splitter silently drops bytes before the first 0xF0 start byte, an
unterminated trailing frame (a final 0xF0 with no later 0xF7) contributes no
output frame, and every emitted frame is a complete 0xF0..0xF7 span. -/
theorem c8_silent_drop :
    (∀ pre rest : List Nat, (∀ b ∈ pre, b ≠ 0xF0) →
      splitSysEx (pre ++ rest) = splitSysEx rest) ∧
    (∀ (frames : List (List Nat)) (trail : List Nat), (∀ f ∈ frames, WFFrame f) →
      (∀ b ∈ trail, b ≠ 0xF7) →
      splitSysEx (frames.join ++ 0xF0 :: trail) = frames) ∧
    (∀ data f, f ∈ splitSysEx data →
      ∃ mid, f = 0xF0 :: (mid ++ [0xF7]) ∧ ∀ b ∈ mid, b ≠ 0xF7) := by
  refine ⟨splitSysEx_garbage, ?_, ?_⟩
  · intro frames trail hwf htr
    exact splitSysEx_unterm_trail frames trail htr hwf
  · intro data f hf
    exact splitSysEx_shape data.length data le_rfl f hf

/-- C8 witness: leading garbage [1, 2] is dropped, and a trailing
unterminated 0xF0 0x09 yields no extra frame. -/
theorem c8_silent_drop_witness :
    splitSysEx ([1, 2] ++ [0xF0, 0x05, 0xF7]) = splitSysEx [0xF0, 0x05, 0xF7] ∧
    splitSysEx (([[0xF0, 0x05, 0xF7]] : List (List Nat)).join ++ 0xF0 :: [0x09]) =
      [[0xF0, 0x05, 0xF7]] :=
  ⟨c8_silent_drop.1 [1, 2] [0xF0, 0x05, 0xF7] (by decide),
   c8_silent_drop.2.1 [[0xF0, 0x05, 0xF7]] [0x09] (by
      intro f hf
      simp only [List.mem_cons, List.not_mem_nil, or_false] at hf
      subst hf
      exact ⟨[0x05], rfl, by decide⟩) (by decide)⟩

/-- C10 witness: at template index 1, control index 0, continuous mode,
k = 48 < 126 and both generators write CC byte 49. -/
theorem c10_legacy_library_refinement_witness :
    legacyCCValue 1 CCMode.continuous 0 = 48 + 1 ∧
    ccValueFor 1 CCMode.continuous DEFAULT_MIN_CC_VALUE false 0 = ((48 + 1 : Nat) : Int) :=
  (c10_legacy_library_refinement 1 0 CCMode.continuous (by decide) (1 * 48 + 0)
    rfl).1 (by decide)

/-- Helper: getD after set at the same in-bounds index yields the new value. -/
theorem getD_set_eq {α : Type} (l : List α) (j : Nat) (a d : α) (h : j < l.length) :
    (l.set j a).getD j d = a := by
  rw [List.getD_eq_getElem?_getD, List.getElem?_set_self h]
  rfl

/-- Helper: getD after set at a different index is unchanged. -/
theorem getD_set_ne {α : Type} (l : List α) (j j2 : Nat) (a d : α) (h : j ≠ j2) :
    (l.set j a).getD j2 d = l.getD j2 d := by
  rw [List.getD_eq_getElem?_getD, List.getD_eq_getElem?_getD, List.getElem?_set_ne h]

theorem length_writeLoc (m : Msgs) (l : Loc) (v : Nat) :
    (writeLoc m l v).length = m.length := by
  simp [writeLoc]

theorem getD_length_writeLoc (m : Msgs) (l : Loc) (v : Nat) (i : Nat) :
    ((writeLoc m l v).getD i []).length = (m.getD i []).length := by
  unfold writeLoc
  by_cases hi : l.1 = i
  · subst hi
    by_cases hl : l.1 < m.length
    · rw [getD_set_eq _ _ _ _ hl, List.length_set]
    · rw [List.set_eq_of_length_le (by omega)]
  · rw [getD_set_ne _ _ _ _ _ hi]

/-- Helper: reading a freshly written in-bounds location yields the value. -/
theorem readLoc_writeLoc_same (m : Msgs) (l : Loc) (v : Nat)
    (h1 : l.1 < m.length) (h2 : l.2 < (m.getD l.1 []).length) :
    readLoc (writeLoc m l v) l = v := by
  unfold readLoc writeLoc
  rw [getD_set_eq _ _ _ _ h1, getD_set_eq _ _ _ _ h2]

/-- Helper: writing one location does not change reads elsewhere. -/
theorem readLoc_writeLoc_ne (m : Msgs) (l l2 : Loc) (v : Nat) (h : l ≠ l2) :
    readLoc (writeLoc m l v) l2 = readLoc m l2 := by
  unfold readLoc writeLoc
  by_cases hi : l.1 = l2.1
  · have hj : l.2 ≠ l2.2 := by
      intro hj
      exact h (Prod.ext hi hj)
    by_cases hl : l.1 < m.length
    · rw [hi] at hl
      rw [hi, getD_set_eq _ _ _ _ hl, getD_set_ne _ _ _ _ _ hj]
    · rw [List.set_eq_of_length_le (by omega)]
  · rw [getD_set_ne _ _ _ _ _ hi]

theorem applyWrites_nil (m : Msgs) : applyWrites [] m = m := rfl

theorem applyWrites_cons (w : Loc × Nat) (ws : List (Loc × Nat)) (m : Msgs) :
    applyWrites (w :: ws) m = applyWrites ws (writeLoc m w.1 w.2) := rfl

theorem applyWrites_append (ws ws2 : List (Loc × Nat)) (m : Msgs) :
    applyWrites (ws ++ ws2) m = applyWrites ws2 (applyWrites ws m) := by
  unfold applyWrites
  rw [List.foldl_append]

theorem length_applyWrites (ws : List (Loc × Nat)) (m : Msgs) :
    (applyWrites ws m).length = m.length := by
  induction ws generalizing m with
  | nil => rfl
  | cons w t ih => rw [applyWrites_cons, ih, length_writeLoc]

theorem getD_length_applyWrites (ws : List (Loc × Nat)) (m : Msgs) (i : Nat) :
    ((applyWrites ws m).getD i []).length = (m.getD i []).length := by
  induction ws generalizing m with
  | nil => rfl
  | cons w t ih => rw [applyWrites_cons, ih, getD_length_writeLoc]

/-- Helper: a location no write in the list touches reads unchanged. -/
theorem readLoc_applyWrites_not_mem (ws : List (Loc × Nat)) (m : Msgs) (l : Loc)
    (h : ∀ w ∈ ws, w.1 ≠ l) :
    readLoc (applyWrites ws m) l = readLoc m l := by
  induction ws generalizing m with
  | nil => rfl
  | cons w t ih =>
    rw [applyWrites_cons, ih _ (fun w2 hw2 => h w2 (List.mem_cons_of_mem w hw2)),
      readLoc_writeLoc_ne _ _ _ _ (h w (List.mem_cons_self w t))]

/-- Helper: if some write in the list touches an in-bounds location and every
write touching it carries the same value, that value is read back. -/
theorem readLoc_applyWrites_const (ws : List (Loc × Nat)) (m : Msgs) (l : Loc) (v : Nat)
    (hex : ∃ w ∈ ws, w.1 = l)
    (hval : ∀ w ∈ ws, w.1 = l → w.2 = v)
    (h1 : l.1 < m.length) (h2 : l.2 < (m.getD l.1 []).length) :
    readLoc (applyWrites ws m) l = v := by
  induction ws generalizing m with
  | nil =>
    obtain ⟨w, hw, _⟩ := hex
    exact absurd hw (List.not_mem_nil w)
  | cons w t ih =>
    rw [applyWrites_cons]
    by_cases hw : w.1 = l
    · by_cases hex2 : ∃ w2 ∈ t, w2.1 = l
      · exact ih _ hex2 (fun w2 hw2 => hval w2 (List.mem_cons_of_mem w hw2))
          (by rw [length_writeLoc]; exact h1)
          (by rw [getD_length_writeLoc]; exact h2)
      · push_neg at hex2
        rw [readLoc_applyWrites_not_mem t _ l hex2]
        have hv := hval w (List.mem_cons_self w t) hw
        rw [← hv, ← hw]
        exact readLoc_writeLoc_same m w.1 w.2 (by rw [hw]; exact h1)
          (by rw [hw]; exact h2)
    · have hex2 : ∃ w2 ∈ t, w2.1 = l := by
        obtain ⟨w2, hw2, he⟩ := hex
        rcases List.mem_cons.mp hw2 with rfl | hin
        · exact absurd he hw
        · exact ⟨w2, hin, he⟩
      exact ih _ hex2 (fun w2 hw2 => hval w2 (List.mem_cons_of_mem w hw2))
        (by rw [length_writeLoc]; exact h1)
        (by rw [getD_length_writeLoc]; exact h2)

/-- Helper: the channel pass equals applying its write list, for any control
list. -/
theorem setMidiChannel_writes (l : List Control) (m : Msgs) (ch : Nat) :
    l.foldl (fun acc c =>
      let acc1 := writeLoc acc (c.mi, c.ch) ch
      if 0 ≤ c.flag then writeLoc acc1 (c.mi, c.flag.toNat) 0x00 else acc1) m =
    applyWrites (l.flatMap (fun c =>
      ((c.mi, c.ch), ch) ::
        (if 0 ≤ c.flag then [((c.mi, c.flag.toNat), 0x00)] else []))) m := by
  induction l generalizing m with
  | nil => rfl
  | cons c t ih =>
    rw [List.foldl_cons, List.flatMap_cons, applyWrites_append, ih]
    congr 1
    by_cases hf : 0 ≤ c.flag
    · simp only [hf, if_true]
      rfl
    · simp only [hf, if_false]
      rfl

theorem setMidiChannel_eq (m : Msgs) (ch : Nat) :
    setMidiChannel m ch = applyWrites (channelWrites ch) m :=
  setMidiChannel_writes CONTROLS m ch

theorem assignCCs_eq (m : Msgs) (t : Nat) (mode : CCMode) (mc : Int) (rev : Bool) :
    assignCCs m t mode mc rev = applyWrites (ccWrites t mode mc rev) m := by
  unfold assignCCs ccWrites applyWrites
  rw [List.foldl_map]

/-- Helper: membership facts for the channel write list. -/
theorem mem_channelWrites (ch : Nat) (c : Control) (hc : c ∈ CONTROLS) :
    ((c.mi, c.ch), ch) ∈ channelWrites ch := by
  unfold channelWrites
  exact List.mem_flatMap.mpr ⟨c, hc, List.mem_cons_self _ _⟩

theorem mem_channelWrites_flag (ch : Nat) (c : Control) (hc : c ∈ CONTROLS)
    (hf : 0 ≤ c.flag) :
    ((c.mi, c.flag.toNat), 0x00) ∈ channelWrites ch := by
  unfold channelWrites
  refine List.mem_flatMap.mpr ⟨c, hc, ?_⟩
  simp [hf]

theorem channelWrites_cases (ch : Nat) (w : Loc × Nat) (hw : w ∈ channelWrites ch) :
    ∃ c ∈ CONTROLS, w = ((c.mi, c.ch), ch) ∨
      (0 ≤ c.flag ∧ w = ((c.mi, c.flag.toNat), 0x00)) := by
  unfold channelWrites at hw
  obtain ⟨c, hc, hm⟩ := List.mem_flatMap.mp hw
  refine ⟨c, hc, ?_⟩
  rcases List.mem_cons.mp hm with rfl | hm2
  · exact Or.inl rfl
  · by_cases hf : 0 ≤ c.flag
    · rw [if_pos hf] at hm2
      rcases List.mem_cons.mp hm2 with rfl | hm3
      · exact Or.inr ⟨hf, rfl⟩
      · exact absurd hm3 (List.not_mem_nil w)
    · rw [if_neg hf] at hm2
      exact absurd hm2 (List.not_mem_nil w)

theorem ccWrites_cases (t : Nat) (mode : CCMode) (mc : Int) (rev : Bool)
    (w : Loc × Nat) (hw : w ∈ ccWrites t mode mc rev) :
    ∃ ci ∈ CONTROLS.enum,
      w = ((ci.2.mi, ci.2.cc), (ccValueFor t mode mc rev ci.1).toNat) := by
  unfold ccWrites at hw
  obtain ⟨ci, hci, he⟩ := List.mem_map.mp hw
  exact ⟨ci, hci, he.symm⟩

theorem snd_mem_of_mem_controls_enum (ci : Nat × Control) (h : ci ∈ CONTROLS.enum) :
    ci.2 ∈ CONTROLS := by
  have := List.mem_map_of_mem Prod.snd h
  rwa [List.enum_map_snd] at this

set_option maxRecDepth 8192 in
/-- Helper: per-pair disjointness of the patched offsets in the control
table, checked over the concrete 48-entry table. -/
theorem controls_loc_disjoint :
    ∀ c ∈ CONTROLS, ∀ c2 ∈ CONTROLS,
      ((c2.mi, c2.cc) ≠ (c.mi, c.ch)) ∧
      (0 ≤ c2.flag → (c2.mi, c2.flag.toNat) ≠ (c.mi, c.ch)) ∧
      (0 ≤ c.flag → (c2.mi, c2.ch) ≠ (c.mi, c.flag.toNat)) ∧
      (0 ≤ c.flag → (c2.mi, c2.cc) ≠ (c.mi, c.flag.toNat)) ∧
      ((c2.mi, c2.cc) ≠ (c.mi, c.col)) ∧
      ((c2.mi, c2.ch) ≠ (c.mi, c.col)) ∧
      (0 ≤ c2.flag → (c2.mi, c2.flag.toNat) ≠ (c.mi, c.col)) := by
  decide

set_option maxRecDepth 8192 in
/-- Helper: every offset of every control is in bounds of its embedded
frame. -/
theorem controls_in_bounds :
    ∀ c ∈ CONTROLS, c.mi < EMBEDDED_MSGS.length ∧
      c.cc < (EMBEDDED_MSGS.getD c.mi []).length ∧
      c.ch < (EMBEDDED_MSGS.getD c.mi []).length ∧
      c.col < (EMBEDDED_MSGS.getD c.mi []).length ∧
      (0 ≤ c.flag → c.flag.toNat < (EMBEDDED_MSGS.getD c.mi []).length) := by
  decide

/-- Helper: after the channel pass and the CC pass, every control's channel
byte reads back as the written zero-based channel and every existing flag
byte reads back 0x00 (no later write clobbers them). -/
theorem generator_reads (z : Nat) (t : Nat) (mode : CCMode) (mc : Int) (rev : Bool) :
    ∀ c ∈ CONTROLS,
      readLoc (assignCCs (setMidiChannel EMBEDDED_MSGS z) t mode mc rev) (c.mi, c.ch) = z ∧
      (0 ≤ c.flag →
        readLoc (assignCCs (setMidiChannel EMBEDDED_MSGS z) t mode mc rev)
          (c.mi, c.flag.toNat) = 0x00) := by
  intro c hc
  rw [assignCCs_eq, setMidiChannel_eq, ← applyWrites_append]
  obtain ⟨hmi, hcc, hch, hcol, hflag⟩ := controls_in_bounds c hc
  constructor
  · refine readLoc_applyWrites_const _ _ _ _
      ⟨((c.mi, c.ch), z), List.mem_append_left _ (mem_channelWrites z c hc), rfl⟩
      ?_ hmi hch
    intro w hw hw1
    rcases List.mem_append.mp hw with hwc | hwcc
    · obtain ⟨c2, hc2, hcase⟩ := channelWrites_cases z w hwc
      rcases hcase with rfl | ⟨hf2, rfl⟩
      · rfl
      · exact absurd hw1 ((controls_loc_disjoint c hc c2 hc2).2.1 hf2)
    · obtain ⟨ci, hci, rfl⟩ := ccWrites_cases t mode mc rev w hwcc
      exact absurd hw1
        ((controls_loc_disjoint c hc ci.2 (snd_mem_of_mem_controls_enum ci hci)).1)
  · intro hf
    refine readLoc_applyWrites_const _ _ _ _
      ⟨((c.mi, c.flag.toNat), 0x00),
        List.mem_append_left _ (mem_channelWrites_flag z c hc hf), rfl⟩
      ?_ hmi (hflag hf)
    intro w hw hw1
    rcases List.mem_append.mp hw with hwc | hwcc
    · obtain ⟨c2, hc2, hcase⟩ := channelWrites_cases z w hwc
      rcases hcase with rfl | ⟨hf2, rfl⟩
      · exact absurd hw1 ((controls_loc_disjoint c hc c2 hc2).2.2.1 hf)
      · rfl
    · obtain ⟨ci, hci, rfl⟩ := ccWrites_cases t mode mc rev w hwcc
      exact absurd hw1
        ((controls_loc_disjoint c hc ci.2 (snd_mem_of_mem_controls_enum ci hci)).2.2.2.1 hf)

/-- C4: for every template number from 1 up, the generated buffer carries, at
every control's channel offset, the zero-based byte of min(t, 16) in
per-template mode or of the supplied global channel (1-16) in global mode;
that byte lies in [0, 15], and every control with a mode-flag offset has its
flag byte forced to 0x00. -/
theorem c4_channel_assignment (templateNum : Int) (channelMode : ChannelMode)
    (globalChannel : Option Int) (ccMode : CCMode) (minCC : Int) (rev : Bool)
    (ht : 1 ≤ templateNum)
    (hglob : channelMode = ChannelMode.globalMode →
      ∃ g, globalChannel = some g ∧ 1 ≤ g ∧ g ≤ 16) :
    ∃ (chosen : Int) (msgs : Msgs),
      generateTemplate templateNum channelMode ccMode globalChannel minCC rev =
        Except.ok msgs ∧
      (channelMode = ChannelMode.perTemplate → chosen = min templateNum 16) ∧
      (channelMode = ChannelMode.globalMode → globalChannel = some chosen) ∧
      1 ≤ chosen ∧ chosen ≤ 16 ∧
      ∀ c ∈ CONTROLS,
        readLoc msgs (c.mi, c.ch) = (chosen - 1).toNat ∧
        (chosen - 1).toNat ≤ 15 ∧
        (0 ≤ c.flag → readLoc msgs (c.mi, c.flag.toNat) = 0x00) := by
  obtain ⟨chosen, hgc, h1c, h16c, hper, hglo⟩ :
      ∃ chosen, getChannelForTemplate templateNum channelMode globalChannel =
          .ok chosen ∧ 1 ≤ chosen ∧ chosen ≤ 16 ∧
        (channelMode = ChannelMode.perTemplate → chosen = min templateNum 16) ∧
        (channelMode = ChannelMode.globalMode → globalChannel = some chosen) := by
    cases channelMode with
    | perTemplate =>
      refine ⟨min templateNum 16, by simp [getChannelForTemplate, MAX_MIDI_CHANNEL],
        le_min ht (by norm_num), min_le_right _ _, ?_, ?_⟩
      · intro _
        rfl
      · intro h
        exact absurd h (by decide)
    | globalMode =>
      obtain ⟨g, hg, hg1, hg16⟩ := hglob rfl
      refine ⟨g, by simp [getChannelForTemplate, hg], hg1, hg16, ?_, ?_⟩
      · intro h
        exact absurd h (by decide)
      · intro _
        exact hg
  have hvc : validateChannel chosen = .ok (chosen - 1).toNat := by
    unfold validateChannel
    rw [if_pos]
    constructor
    · simpa [MIN_MIDI_CHANNEL] using h1c
    · simpa [MAX_MIDI_CHANNEL] using h16c
  refine ⟨chosen, assignCCs (setMidiChannel EMBEDDED_MSGS (chosen - 1).toNat)
      (templateNum - 1).toNat ccMode minCC rev, ?_, hper, hglo, h1c, h16c, ?_⟩
  · simp only [generateTemplate, hgc, hvc]
  · intro c hc
    have hr := generator_reads (chosen - 1).toNat (templateNum - 1).toNat ccMode minCC rev c hc
    exact ⟨hr.1, by omega, hr.2⟩

/-- C4 witness: template 20 in per-template mode saturates at channel 16, so
control 0's channel byte reads 15 and its flag byte reads 0. -/
theorem c4_channel_assignment_witness :
    ∃ (chosen : Int) (msgs : Msgs),
      generateTemplate 20 ChannelMode.perTemplate CCMode.restart none 1 false =
        Except.ok msgs ∧
      (ChannelMode.perTemplate = ChannelMode.perTemplate → chosen = min 20 16) ∧
      (ChannelMode.perTemplate = ChannelMode.globalMode → none = some chosen) ∧
      1 ≤ chosen ∧ chosen ≤ 16 ∧
      ∀ c ∈ CONTROLS,
        readLoc msgs (c.mi, c.ch) = (chosen - 1).toNat ∧
        (chosen - 1).toNat ≤ 15 ∧
        (0 ≤ c.flag → readLoc msgs (c.mi, c.flag.toNat) = 0x00) :=
  c4_channel_assignment 20 ChannelMode.perTemplate none CCMode.restart 1 false
    (by norm_num) (fun h => absurd h (by decide))

/-- C6: an out-of-range requested channel (such as 17) in global mode makes
generate_template return the invalid-channel error, and global mode with no
global channel returns the missing-parameter error; in the functional
embedding the error is the entire result, so no partially patched buffer is
produced and the base messages, a constant the generator never rebinds, are
untouched. -/
theorem c6_validation_eager (templateNum : Int) (ccMode : CCMode) (minCC : Int)
    (rev : Bool) :
    (∀ g : Int, ¬(1 ≤ g ∧ g ≤ 16) →
      generateTemplate templateNum ChannelMode.globalMode ccMode (some g) minCC rev =
        .error "Channel must be integer between 1 and 16") ∧
    generateTemplate templateNum ChannelMode.globalMode ccMode none minCC rev =
      .error "Global channel must be specified for GLOBAL channel mode" := by
  constructor
  · intro g hg
    have hgc : getChannelForTemplate templateNum ChannelMode.globalMode (some g) =
        .ok g := rfl
    have hvc : validateChannel g =
        .error "Channel must be integer between 1 and 16" := by
      unfold validateChannel
      rw [if_neg]
      simpa [MIN_MIDI_CHANNEL, MAX_MIDI_CHANNEL] using hg
    simp only [generateTemplate, hgc, hvc]
  · rfl

/-- C6 witness: channel 17 raises the invalid-channel error and a missing
global channel raises the missing-parameter error. -/
theorem c6_validation_eager_witness :
    generateTemplate 1 ChannelMode.globalMode CCMode.restart (some 17) 1 false =
      .error "Channel must be integer between 1 and 16" ∧
    generateTemplate 1 ChannelMode.globalMode CCMode.restart none 1 false =
      .error "Global channel must be specified for GLOBAL channel mode" :=
  ⟨(c6_validation_eager 1 CCMode.restart 1 false).1 17 (by decide),
   (c6_validation_eager 1 CCMode.restart 1 false).2⟩

/-- Helper: a location that is no control's CC, channel or flag offset reads
the base byte after both generator passes. -/
theorem generator_unpatched (z t : Nat) (mode : CCMode) (mc : Int) (rev : Bool)
    (l : Loc) (hl : ¬IsPatchedLoc l) :
    readLoc (assignCCs (setMidiChannel EMBEDDED_MSGS z) t mode mc rev) l =
      readLoc EMBEDDED_MSGS l := by
  rw [assignCCs_eq, setMidiChannel_eq, ← applyWrites_append]
  apply readLoc_applyWrites_not_mem
  intro w hw
  rcases List.mem_append.mp hw with hwc | hwcc
  · obtain ⟨c2, hc2, hcase⟩ := channelWrites_cases z w hwc
    rcases hcase with rfl | ⟨hf2, rfl⟩
    · intro he
      exact hl ⟨c2, hc2, Or.inr (Or.inl he.symm)⟩
    · intro he
      exact hl ⟨c2, hc2, Or.inr (Or.inr ⟨hf2, he.symm⟩)⟩
  · obtain ⟨ci, hci, rfl⟩ := ccWrites_cases t mode mc rev w hwcc
    intro he
    exact hl ⟨ci.2, snd_mem_of_mem_controls_enum ci hci, Or.inl he.symm⟩

/-- Helper: no control's color offset coincides with any patched offset. -/
theorem color_loc_not_patched (c : Control) (hc : c ∈ CONTROLS) :
    ¬IsPatchedLoc (c.mi, c.col) := by
  rintro ⟨c2, hc2, hcase⟩
  have hd := controls_loc_disjoint c hc c2 hc2
  rcases hcase with he | he | ⟨hf2, he⟩
  · exact hd.2.2.2.2.1 he.symm
  · exact hd.2.2.2.2.2.1 he.symm
  · exact hd.2.2.2.2.2.2 hf2 he.symm

/-- C9: every successful generate_template call returns a buffer whose frames
have the base frames' lengths and agree with the immutable base frames at
every byte that is not some control's CC, channel or mode-flag offset; in
particular the 0xF0 start bytes, 0xF7 end bytes and all color bytes are
unchanged (the base frames themselves are a constant of the embedding, never
mutated). -/
theorem c9_frame_effect (templateNum : Int) (channelMode : ChannelMode)
    (globalChannel : Option Int) (ccMode : CCMode) (minCC : Int) (rev : Bool)
    (ht : 1 ≤ templateNum)
    (hglob : channelMode = ChannelMode.globalMode →
      ∃ g, globalChannel = some g ∧ 1 ≤ g ∧ g ≤ 16) :
    ∃ msgs : Msgs,
      generateTemplate templateNum channelMode ccMode globalChannel minCC rev =
        Except.ok msgs ∧
      msgs.length = EMBEDDED_MSGS.length ∧
      (∀ mi, (msgs.getD mi []).length = (EMBEDDED_MSGS.getD mi []).length) ∧
      (∀ l : Loc, ¬IsPatchedLoc l → readLoc msgs l = readLoc EMBEDDED_MSGS l) ∧
      (∀ c ∈ CONTROLS,
        readLoc msgs (c.mi, c.col) = readLoc EMBEDDED_MSGS (c.mi, c.col)) ∧
      readLoc msgs (0, 0) = 0xF0 ∧ readLoc msgs (0, 341) = 0xF7 ∧
      readLoc msgs (1, 0) = 0xF0 ∧ readLoc msgs (1, 341) = 0xF7 := by
  obtain ⟨chosen, hgc, h1c, h16c⟩ :
      ∃ chosen, getChannelForTemplate templateNum channelMode globalChannel =
          .ok chosen ∧ 1 ≤ chosen ∧ chosen ≤ 16 := by
    cases channelMode with
    | perTemplate =>
      exact ⟨min templateNum 16, by simp [getChannelForTemplate, MAX_MIDI_CHANNEL],
        le_min ht (by norm_num), min_le_right _ _⟩
    | globalMode =>
      obtain ⟨g, hg, hg1, hg16⟩ := hglob rfl
      exact ⟨g, by simp [getChannelForTemplate, hg], hg1, hg16⟩
  have hvc : validateChannel chosen = .ok (chosen - 1).toNat := by
    unfold validateChannel
    rw [if_pos]
    constructor
    · simpa [MIN_MIDI_CHANNEL] using h1c
    · simpa [MAX_MIDI_CHANNEL] using h16c
  refine ⟨assignCCs (setMidiChannel EMBEDDED_MSGS (chosen - 1).toNat)
      (templateNum - 1).toNat ccMode minCC rev, ?_, ?_, ?_, ?_, ?_, ?_, ?_, ?_, ?_⟩
  · simp only [generateTemplate, hgc, hvc]
  · rw [assignCCs_eq, setMidiChannel_eq, length_applyWrites, length_applyWrites]
  · intro mi
    rw [assignCCs_eq, setMidiChannel_eq, getD_length_applyWrites, getD_length_applyWrites]
  · exact fun l hl => generator_unpatched _ _ _ _ _ l hl
  · exact fun c hc => generator_unpatched _ _ _ _ _ _ (color_loc_not_patched c hc)
  · rw [generator_unpatched _ _ _ _ _ (0, 0) (by unfold IsPatchedLoc; decide)]
    rfl
  · rw [generator_unpatched _ _ _ _ _ (0, 341) (by unfold IsPatchedLoc; decide)]
    rfl
  · rw [generator_unpatched _ _ _ _ _ (1, 0) (by unfold IsPatchedLoc; decide)]
    rfl
  · rw [generator_unpatched _ _ _ _ _ (1, 341) (by unfold IsPatchedLoc; decide)]
    rfl

/-- C9 witness: template 1, per-template mode, restart numbering. -/
theorem c9_frame_effect_witness :
    ∃ msgs : Msgs,
      generateTemplate 1 ChannelMode.perTemplate CCMode.restart none 1 false =
        Except.ok msgs ∧
      msgs.length = EMBEDDED_MSGS.length ∧
      (∀ mi, (msgs.getD mi []).length = (EMBEDDED_MSGS.getD mi []).length) ∧
      (∀ l : Loc, ¬IsPatchedLoc l → readLoc msgs l = readLoc EMBEDDED_MSGS l) ∧
      (∀ c ∈ CONTROLS,
        readLoc msgs (c.mi, c.col) = readLoc EMBEDDED_MSGS (c.mi, c.col)) ∧
      readLoc msgs (0, 0) = 0xF0 ∧ readLoc msgs (0, 341) = 0xF7 ∧
      readLoc msgs (1, 0) = 0xF0 ∧ readLoc msgs (1, 341) = 0xF7 :=
  c9_frame_effect 1 ChannelMode.perTemplate none CCMode.restart 1 false
    (by norm_num) (fun h => absurd h (by decide))

theorem updColor_same (cols : (Nat × Nat) → String) (rc : Nat × Nat) (n : String) :
    updColor cols rc n rc = n := by
  simp [updColor]

theorem updColor_ne (cols : (Nat × Nat) → String) (rc rc2 : Nat × Nat) (n : String)
    (h : rc2 ≠ rc) : updColor cols rc n rc2 = cols rc2 := by
  simp [updColor, h]

theorem applyUpds_cons (u : (Nat × Nat) × String) (us : List ((Nat × Nat) × String))
    (cols : (Nat × Nat) → String) :
    applyUpds (u :: us) cols = applyUpds us (updColor cols u.1 u.2) := rfl

/-- Helper: a grid position no update touches keeps its old color. -/
theorem applyUpds_not_mem (us : List ((Nat × Nat) × String))
    (cols : (Nat × Nat) → String) (rc : Nat × Nat) (h : ∀ u ∈ us, u.1 ≠ rc) :
    applyUpds us cols rc = cols rc := by
  induction us generalizing cols with
  | nil => rfl
  | cons u t ih =>
    rw [applyUpds_cons, ih _ (fun u2 hu2 => h u2 (List.mem_cons_of_mem u hu2)),
      updColor_ne _ _ _ _ (fun he => h u (List.mem_cons_self u t) he.symm)]

/-- Helper: if some update touches a position and all updates touching it
carry the same name, that name is read back. -/
theorem applyUpds_const (us : List ((Nat × Nat) × String))
    (cols : (Nat × Nat) → String) (rc : Nat × Nat) (v : String)
    (hex : ∃ u ∈ us, u.1 = rc) (hval : ∀ u ∈ us, u.1 = rc → u.2 = v) :
    applyUpds us cols rc = v := by
  induction us generalizing cols with
  | nil =>
    obtain ⟨u, hu, _⟩ := hex
    exact absurd hu (List.not_mem_nil u)
  | cons u t ih =>
    rw [applyUpds_cons]
    by_cases hu : u.1 = rc
    · by_cases hex2 : ∃ u2 ∈ t, u2.1 = rc
      · exact ih _ hex2 (fun u2 hu2 => hval u2 (List.mem_cons_of_mem u hu2))
      · push_neg at hex2
        rw [applyUpds_not_mem t _ rc hex2, ← hu, updColor_same]
        exact hval u (List.mem_cons_self u t) hu
    · have hex2 : ∃ u2 ∈ t, u2.1 = rc := by
        obtain ⟨u2, hu2, he⟩ := hex
        rcases List.mem_cons.mp hu2 with rfl | hin
        · exact absurd he hu
        · exact ⟨u2, hin, he⟩
      exact ih _ hex2 (fun u2 hu2 => hval u2 (List.mem_cons_of_mem u hu2))

/-- Helper: the extraction fold equals applying its update list. -/
theorem extract_fold_eq (msgs : Msgs) (l : List (Nat × Control))
    (cols0 : (Nat × Nat) → String) :
    l.foldl (fun cols ci =>
      if ci.2.mi < msgs.length ∧ ci.2.col < (msgs.getD ci.2.mi []).length then
        match controlIndexToPosition ci.1 with
        | some rc =>
          updColor cols rc (colorNameOfValue ((msgs.getD ci.2.mi []).getD ci.2.col 0))
        | none => cols
      else cols) cols0 =
    applyUpds (l.filterMap (fun ci =>
      if ci.2.mi < msgs.length ∧ ci.2.col < (msgs.getD ci.2.mi []).length then
        match controlIndexToPosition ci.1 with
        | some rc =>
          some (rc, colorNameOfValue ((msgs.getD ci.2.mi []).getD ci.2.col 0))
        | none => none
      else none)) cols0 := by
  induction l generalizing cols0 with
  | nil => rfl
  | cons ci t ih =>
    rw [List.foldl_cons, List.filterMap_cons]
    by_cases hb : ci.2.mi < msgs.length ∧ ci.2.col < (msgs.getD ci.2.mi []).length
    · rw [if_pos hb, if_pos hb]
      cases hp : controlIndexToPosition ci.1 with
      | some rc =>
        simp only [hp]
        exact ih _
      | none =>
        simp only [hp]
        exact ih cols0
    · rw [if_neg hb, if_neg hb]
      exact ih cols0

theorem extractColors_eq (data : List Nat) :
    extractColors data = applyUpds (colorUpdates (splitSysEx data)) initColors := by
  unfold extractColors colorUpdates
  exact extract_fold_eq (splitSysEx data) CONTROLS.enum initColors

/-- Helper: the color application fold equals applying its write list; the
bounds checks against the evolving buffer agree with those against the input
buffer because writes preserve all lengths. -/
theorem patch_fold_eq (cols : (Nat × Nat) → String) (msgs : Msgs)
    (l : List (Nat × Control)) :
    ∀ acc : Msgs, acc.length = msgs.length →
      (∀ i, (acc.getD i []).length = (msgs.getD i []).length) →
      l.foldl (fun acc ci =>
        if ci.2.mi < acc.length ∧ ci.2.col < (acc.getD ci.2.mi []).length then
          match controlIndexToPosition ci.1 with
          | some rc => writeLoc acc (ci.2.mi, ci.2.col) (colorValueOfName (cols rc))
          | none => acc
        else acc) acc =
      applyWrites (l.filterMap (fun ci =>
        if ci.2.mi < msgs.length ∧ ci.2.col < (msgs.getD ci.2.mi []).length then
          match controlIndexToPosition ci.1 with
          | some rc => some ((ci.2.mi, ci.2.col), colorValueOfName (cols rc))
          | none => none
        else none)) acc := by
  induction l with
  | nil =>
    intro acc _ _
    rfl
  | cons ci t ih =>
    intro acc hlen hflen
    rw [List.foldl_cons, List.filterMap_cons]
    by_cases hb : ci.2.mi < msgs.length ∧ ci.2.col < (msgs.getD ci.2.mi []).length
    · have hb2 : ci.2.mi < acc.length ∧ ci.2.col < (acc.getD ci.2.mi []).length := by
        rw [hlen, hflen ci.2.mi]
        exact hb
      rw [if_pos hb2, if_pos hb]
      cases hp : controlIndexToPosition ci.1 with
      | some rc =>
        simp only [hp]
        exact ih _ (by rw [length_writeLoc]; exact hlen)
          (fun i => by rw [getD_length_writeLoc]; exact hflen i)
      | none =>
        simp only [hp]
        exact ih acc hlen hflen
    · have hb2 : ¬(ci.2.mi < acc.length ∧ ci.2.col < (acc.getD ci.2.mi []).length) := by
        rw [hlen, hflen ci.2.mi]
        exact hb
      rw [if_neg hb2, if_neg hb]
      exact ih acc hlen hflen

theorem patchColorsFrames_eq (msgs : Msgs) (cols : (Nat × Nat) → String) :
    patchColorsFrames msgs cols = applyWrites (colorWrites msgs cols) msgs := by
  unfold patchColorsFrames colorWrites
  exact patch_fold_eq cols msgs CONTROLS.enum msgs rfl (fun _ => rfl)

theorem colorWrites_cases (msgs : Msgs) (cols : (Nat × Nat) → String)
    (w : Loc × Nat) (hw : w ∈ colorWrites msgs cols) :
    ∃ ci ∈ CONTROLS.enum, ∃ rc,
      controlIndexToPosition ci.1 = some rc ∧
      ci.2.mi < msgs.length ∧ ci.2.col < (msgs.getD ci.2.mi []).length ∧
      w = ((ci.2.mi, ci.2.col), colorValueOfName (cols rc)) := by
  unfold colorWrites at hw
  obtain ⟨ci, hci, he⟩ := List.mem_filterMap.mp hw
  by_cases hb : ci.2.mi < msgs.length ∧ ci.2.col < (msgs.getD ci.2.mi []).length
  · rw [if_pos hb] at he
    cases hp : controlIndexToPosition ci.1 with
    | some rc =>
      rw [hp] at he
      exact ⟨ci, hci, rc, hp, hb.1, hb.2, (Option.some.inj he).symm⟩
    | none =>
      rw [hp] at he
      cases he
  · rw [if_neg hb] at he
    cases he

theorem mem_colorWrites (msgs : Msgs) (cols : (Nat × Nat) → String)
    (ci : Nat × Control) (rc : Nat × Nat) (hci : ci ∈ CONTROLS.enum)
    (hp : controlIndexToPosition ci.1 = some rc)
    (hb : ci.2.mi < msgs.length ∧ ci.2.col < (msgs.getD ci.2.mi []).length) :
    ((ci.2.mi, ci.2.col), colorValueOfName (cols rc)) ∈ colorWrites msgs cols := by
  unfold colorWrites
  refine List.mem_filterMap.mpr ⟨ci, hci, ?_⟩
  rw [if_pos hb, hp]

theorem colorUpdates_cases (msgs : Msgs) (u : (Nat × Nat) × String)
    (hu : u ∈ colorUpdates msgs) :
    ∃ ci ∈ CONTROLS.enum, ∃ rc,
      controlIndexToPosition ci.1 = some rc ∧
      ci.2.mi < msgs.length ∧ ci.2.col < (msgs.getD ci.2.mi []).length ∧
      u = (rc, colorNameOfValue ((msgs.getD ci.2.mi []).getD ci.2.col 0)) := by
  unfold colorUpdates at hu
  obtain ⟨ci, hci, he⟩ := List.mem_filterMap.mp hu
  by_cases hb : ci.2.mi < msgs.length ∧ ci.2.col < (msgs.getD ci.2.mi []).length
  · rw [if_pos hb] at he
    cases hp : controlIndexToPosition ci.1 with
    | some rc =>
      rw [hp] at he
      exact ⟨ci, hci, rc, hp, hb.1, hb.2, (Option.some.inj he).symm⟩
    | none =>
      rw [hp] at he
      cases he
  · rw [if_neg hb] at he
    cases he

theorem mem_colorUpdates (msgs : Msgs) (ci : Nat × Control) (rc : Nat × Nat)
    (hci : ci ∈ CONTROLS.enum) (hp : controlIndexToPosition ci.1 = some rc)
    (hb : ci.2.mi < msgs.length ∧ ci.2.col < (msgs.getD ci.2.mi []).length) :
    (rc, colorNameOfValue ((msgs.getD ci.2.mi []).getD ci.2.col 0)) ∈
      colorUpdates msgs := by
  unfold colorUpdates
  refine List.mem_filterMap.mpr ⟨ci, hci, ?_⟩
  rw [if_pos hb, hp]

set_option maxRecDepth 8192 in
/-- Helper: distinct table entries occupy distinct color locations, checked
over the concrete table. -/
theorem controls_enum_color_inj :
    ∀ ci ∈ CONTROLS.enum, ∀ cj ∈ CONTROLS.enum,
      (ci.2.mi, ci.2.col) = (cj.2.mi, cj.2.col) → ci = cj := by
  decide

set_option maxRecDepth 8192 in
/-- Helper: the grid-position mapping is injective over the table's enum,
checked concretely. -/
theorem controls_enum_pos_inj :
    ∀ ci ∈ CONTROLS.enum, ∀ cj ∈ CONTROLS.enum,
      controlIndexToPosition ci.1 = controlIndexToPosition cj.1 → ci = cj := by
  decide

set_option maxRecDepth 8192 in
/-- Helper: every control index in the table has a grid position. -/
theorem controls_enum_pos_some :
    ∀ ci ∈ CONTROLS.enum, (controlIndexToPosition ci.1).isSome = true := by
  decide

/-- Helper: what the extracted color state holds at an in-bounds control's
grid position. -/
theorem extractColors_value (msgs : Msgs) (ci : Nat × Control) (rc : Nat × Nat)
    (hci : ci ∈ CONTROLS.enum) (hp : controlIndexToPosition ci.1 = some rc)
    (hb : ci.2.mi < msgs.length ∧ ci.2.col < (msgs.getD ci.2.mi []).length) :
    applyUpds (colorUpdates msgs) initColors rc =
      colorNameOfValue ((msgs.getD ci.2.mi []).getD ci.2.col 0) := by
  apply applyUpds_const
  · exact ⟨(rc, colorNameOfValue ((msgs.getD ci.2.mi []).getD ci.2.col 0)),
      mem_colorUpdates msgs ci rc hci hp hb, rfl⟩
  · intro u hu hu1
    obtain ⟨cj, hcj, rc2, hp2, hb2a, hb2b, he⟩ := colorUpdates_cases msgs u hu
    subst he
    simp only at hu1
    have hpp : controlIndexToPosition cj.1 = controlIndexToPosition ci.1 := by
      rw [hp2, hp, hu1]
    have hcij := controls_enum_pos_inj cj hcj ci hci hpp
    rw [hcij]

/-- Helper: the color byte the application pass leaves at an in-bounds
control's color offset. -/
theorem patch_read_at (msgs : Msgs) (cols : (Nat × Nat) → String)
    (ci : Nat × Control) (rc : Nat × Nat) (hci : ci ∈ CONTROLS.enum)
    (hp : controlIndexToPosition ci.1 = some rc)
    (hb : ci.2.mi < msgs.length ∧ ci.2.col < (msgs.getD ci.2.mi []).length) :
    readLoc (applyWrites (colorWrites msgs cols) msgs) (ci.2.mi, ci.2.col) =
      colorValueOfName (cols rc) := by
  refine readLoc_applyWrites_const _ _ _ _
    ⟨((ci.2.mi, ci.2.col), colorValueOfName (cols rc)),
      mem_colorWrites msgs cols ci rc hci hp hb, rfl⟩ ?_ hb.1 hb.2
  intro w hw hw1
  obtain ⟨cj, hcj, rc2, hp2, hb2a, hb2b, he⟩ := colorWrites_cases msgs cols w hw
  subst he
  simp only at hw1
  have hcij := controls_enum_color_inj cj hcj ci hci hw1
  rw [hcij] at hp2
  rw [hp] at hp2
  rw [hcij, Option.some.inj hp2]

/-- Helper: bytes away from every in-bounds color offset are unchanged by the
application pass. -/
theorem patch_read_unchanged (msgs : Msgs) (cols : (Nat × Nat) → String) (l : Loc)
    (hl : ¬∃ ci ∈ CONTROLS.enum, (ci.2.mi, ci.2.col) = l ∧ ci.2.mi < msgs.length ∧
      ci.2.col < (msgs.getD ci.2.mi []).length) :
    readLoc (applyWrites (colorWrites msgs cols) msgs) l = readLoc msgs l := by
  apply readLoc_applyWrites_not_mem
  intro w hw
  obtain ⟨ci, hci, rc, hp, hb1, hb2, rfl⟩ := colorWrites_cases msgs cols w hw
  intro he
  exact hl ⟨ci, hci, he, hb1, hb2⟩

set_option maxRecDepth 8192 in
/-- Helper: resolving the extracted name of a byte present in the color table
returns that byte, checked over the concrete table. -/
theorem color_canon_mem :
    ∀ p ∈ COLOR_MAP, colorValueOfName (colorNameOfValue p.2) = p.2 := by
  decide

theorem color_canon (v : Nat) (hv : ∃ p ∈ COLOR_MAP, p.2 = v) :
    colorValueOfName (colorNameOfValue v) = v := by
  obtain ⟨p, hp, rfl⟩ := hv
  exact color_canon_mem p hp

/-- Helper: a byte absent from the color table extracts as off and resolves
back to the off byte 0x03. -/
theorem color_canon_absent (v : Nat) (hv : ¬∃ p ∈ COLOR_MAP, p.2 = v) :
    colorValueOfName (colorNameOfValue v) = 0x03 := by
  have hf : COLOR_MAP.find? (fun p => p.2 == v) = none := by
    rw [List.find?_eq_none]
    intro p hp
    simp only [beq_iff_eq]
    exact fun he => hv ⟨p, hp, he⟩
  unfold colorNameOfValue
  rw [hf]
  rfl

set_option maxRecDepth 8192 in
/-- C2: for a clean concatenation of well-formed frames, applying back the
extracted colors joins the patched frames; the patched frames keep their
lengths and agree with the originals at every byte that is not an in-bounds
control color offset, every in-bounds color offset holds the ColorTable byte
of the extracted color name, and that byte equals the original whenever the
original is in the ColorTable and is the off byte 0x03 otherwise. -/
theorem c2_color_roundtrip (frames : List (List Nat))
    (hwf : ∀ f ∈ frames, WFFrame f) :
    applyColors frames.join (extractColors frames.join) =
      (patchColorsFrames frames (extractColors frames.join)).join ∧
    (patchColorsFrames frames (extractColors frames.join)).length = frames.length ∧
    (∀ mi, ((patchColorsFrames frames (extractColors frames.join)).getD mi []).length =
      (frames.getD mi []).length) ∧
    (∀ l : Loc,
      (¬∃ ci ∈ CONTROLS.enum, (ci.2.mi, ci.2.col) = l ∧ ci.2.mi < frames.length ∧
        ci.2.col < (frames.getD ci.2.mi []).length) →
      readLoc (patchColorsFrames frames (extractColors frames.join)) l =
        readLoc frames l) ∧
    (∀ ci ∈ CONTROLS.enum, ci.2.mi < frames.length →
      ci.2.col < (frames.getD ci.2.mi []).length →
      readLoc (patchColorsFrames frames (extractColors frames.join))
          (ci.2.mi, ci.2.col) =
        colorValueOfName (colorNameOfValue (readLoc frames (ci.2.mi, ci.2.col)))) ∧
    (∀ v : Nat, (∃ p ∈ COLOR_MAP, p.2 = v) →
      colorValueOfName (colorNameOfValue v) = v) ∧
    (∀ v : Nat, (¬∃ p ∈ COLOR_MAP, p.2 = v) →
      colorValueOfName (colorNameOfValue v) = 0x03) := by
  have hsplit : splitSysEx frames.join = frames := splitSysEx_join frames hwf
  have hcols : extractColors frames.join = applyUpds (colorUpdates frames) initColors := by
    rw [extractColors_eq, hsplit]
  have hpatch : patchColorsFrames frames (extractColors frames.join) =
      applyWrites (colorWrites frames (extractColors frames.join)) frames :=
    patchColorsFrames_eq frames _
  refine ⟨?_, ?_, ?_, ?_, ?_, color_canon, color_canon_absent⟩
  · unfold applyColors
    rw [hsplit]
  · rw [hpatch, length_applyWrites]
  · intro mi
    rw [hpatch, getD_length_applyWrites]
  · intro l hl
    rw [hpatch]
    exact patch_read_unchanged frames _ l hl
  · intro ci hci hb1 hb2
    obtain ⟨rc, hp⟩ := Option.isSome_iff_exists.mp (controls_enum_pos_some ci hci)
    rw [hpatch, patch_read_at frames _ ci rc hci hp ⟨hb1, hb2⟩, hcols,
      extractColors_value frames ci rc hci hp ⟨hb1, hb2⟩]
    rfl

/-- C2 witness: a concrete one-frame stream (all color offsets out of bounds)
round trips through extraction and application. -/
theorem c2_color_roundtrip_witness :
    applyColors ([[0xF0, 0x05, 0xF7]] : List (List Nat)).join
        (extractColors ([[0xF0, 0x05, 0xF7]] : List (List Nat)).join) =
      (patchColorsFrames [[0xF0, 0x05, 0xF7]]
        (extractColors ([[0xF0, 0x05, 0xF7]] : List (List Nat)).join)).join :=
  (c2_color_roundtrip [[0xF0, 0x05, 0xF7]] (by
    intro f hf
    simp only [List.mem_cons, List.not_mem_nil, or_false] at hf
    subst hf
    exact ⟨[0x05], rfl, by decide⟩)).1

end LCXL3
